import Mathlib

/-!
Verification of the streaming live-audio client and agent glue of the
language-tutoring repository.  Byte payloads are modelled as `List Nat`,
inbound live-server messages as records with optional audio data and
optional text, JSON values as an inductive `PyJson`, and the external
JSON decoder / HTTP transport as explicit parameters.  Each definition
mirrors one function of the Python source.
-/

namespace LiveAudio

/-- Default MIME tag for outgoing audio blobs (`DEFAULT_AUDIO_MIME`). -/
def DEFAULT_AUDIO_MIME : String := "audio/wav"

/-- Default streaming chunk size in bytes (`DEFAULT_STREAM_CHUNK_SIZE`). -/
def DEFAULT_STREAM_CHUNK_SIZE : Nat := 32000

/-- Python `range(start, stop, step)` for a positive `step`,
as the list of its elements (`start + k * step` while `< stop`). -/
def pyRange (start stop step : Nat) : List Nat :=
  (List.range ((stop - start + step - 1) / step)).map (fun k => start + k * step)

/-- Python slice `payload[i : i + n]`. -/
def pySlice (payload : List Nat) (i n : Nat) : List Nat :=
  (payload.drop i).take n

/-- Model of `GeminiLiveAudioClient._chunk_bytes` / `LiveConversationSession._chunk_bytes`
(the two methods are textually identical):
`if not payload: return []` then
`[payload[i : i + chunk_size] for i in range(0, len(payload), chunk_size)]`. -/
def chunkBytes (chunkSize : Nat) (payload : List Nat) : List (List Nat) :=
  if payload = [] then []
  else (pyRange 0 payload.length chunkSize).map (fun i => pySlice payload i chunkSize)

/-- Recursive reformulation of the chunker for chunk size `n + 1`,
used to reason about `chunkBytes` by induction. -/
def chunksRec (n : Nat) (l : List Nat) : List (List Nat) :=
  if h : l = [] then []
  else (l.take (n + 1)) :: chunksRec n (l.drop (n + 1))
termination_by l.length
decreasing_by
  simp only [List.length_drop]
  have hp : 0 < l.length := List.length_pos.mpr h
  omega

theorem chunksRec_nil (n : Nat) : chunksRec n [] = [] := by
  unfold chunksRec
  simp

theorem chunksRec_ne_nil (n : Nat) (l : List Nat) (h : l ≠ []) :
    chunksRec n l = (l.take (n + 1)) :: chunksRec n (l.drop (n + 1)) := by
  conv_lhs => unfold chunksRec
  simp [h]

theorem chunksRec_eq_nil_iff (n : Nat) (l : List Nat) :
    chunksRec n l = [] ↔ l = [] := by
  rcases eq_or_ne l [] with rfl | h
  · simp [chunksRec_nil]
  · simp [chunksRec_ne_nil n l h, h]

/-- Counting lemma: the chunk count satisfies the ceiling recurrence. -/
theorem ceil_div_succ (L N : Nat) (hL : 0 < L) (hN : 0 < N) :
    (L + N - 1) / N = ((L - N) + N - 1) / N + 1 := by
  rcases le_or_lt N L with h | h
  · have h1 : L + N - 1 = ((L - N) + N - 1) + N := by omega
    rw [h1, Nat.add_div_right _ hN]
  · have h0 : L - N = 0 := by omega
    rw [h0]
    have h1 : (0 + N - 1) / N = 0 := Nat.div_eq_of_lt (by omega)
    have h2 : (L + N - 1) / N = 1 :=
      Nat.div_eq_of_lt_le (by omega) (by omega)
    rw [h1, h2]

theorem pyRange_zero_succ (L n : Nat) (hL : 0 < L) :
    pyRange 0 L (n + 1) =
      0 :: (pyRange 0 (L - (n + 1)) (n + 1)).map (fun i => i + (n + 1)) := by
  unfold pyRange
  simp only [Nat.sub_zero, Nat.zero_add]
  rw [ceil_div_succ L (n + 1) hL (Nat.succ_pos n), List.range_succ_eq_map]
  simp only [List.map_cons, List.map_map, Nat.zero_mul]
  congr 1
  apply List.map_congr_left
  intro k _
  simp only [Function.comp_apply, Nat.succ_eq_add_one]
  ring

theorem chunkBytes_eq_chunksRec (n : Nat) (payload : List Nat) :
    chunkBytes (n + 1) payload = chunksRec n payload := by
  have H : ∀ L, ∀ l : List Nat, l.length ≤ L →
      chunkBytes (n + 1) l = chunksRec n l := by
    intro L
    induction L with
    | zero =>
      intro l hl
      have : l = [] := List.eq_nil_of_length_eq_zero (by omega)
      subst this
      simp [chunkBytes, chunksRec_nil]
    | succ L ih =>
      intro l hl
      rcases eq_or_ne l [] with rfl | h
      · simp [chunkBytes, chunksRec_nil]
      · rw [chunksRec_ne_nil n l h]
        unfold chunkBytes
        rw [if_neg h, pyRange_zero_succ _ n (List.length_pos.mpr h)]
        simp only [List.map_cons, List.map_map]
        have hhead : pySlice l 0 (n + 1) = l.take (n + 1) := by
          simp [pySlice]
        have hslice : ∀ i : Nat,
            pySlice l (i + (n + 1)) (n + 1) = pySlice (l.drop (n + 1)) i (n + 1) := by
          intro i
          unfold pySlice
          rw [Nat.add_comm i (n + 1), ← List.drop_drop]
        have hlen : l.length - (n + 1) = (l.drop (n + 1)).length := by
          simp
        have htail :
            (pyRange 0 (l.length - (n + 1)) (n + 1)).map
                ((fun i => pySlice l i (n + 1)) ∘ (fun i => i + (n + 1))) =
              (pyRange 0 ((l.drop (n + 1)).length) (n + 1)).map
                (fun i => pySlice (l.drop (n + 1)) i (n + 1)) := by
          rw [hlen]
          apply List.map_congr_left
          intro i _
          simp only [Function.comp_apply]
          exact hslice i
        rw [hhead, htail]
        have hrecl : (l.drop (n + 1)).length ≤ L := by
          have hp : 0 < l.length := List.length_pos.mpr h
          simp only [List.length_drop]
          omega
        have hrec := ih (l.drop (n + 1)) hrecl
        rcases eq_or_ne (l.drop (n + 1)) [] with hnil | hne
        · rw [hnil, chunksRec_nil]
          simp [pyRange, Nat.div_eq_of_lt (Nat.lt_succ_self n)]
        · unfold chunkBytes at hrec
          rw [if_neg hne] at hrec
          rw [hrec]
  exact H payload.length payload le_rfl

theorem chunksRec_flatten (n : Nat) (l : List Nat) :
    (chunksRec n l).flatten = l := by
  have H : ∀ L, ∀ l : List Nat, l.length ≤ L → (chunksRec n l).flatten = l := by
    intro L
    induction L with
    | zero =>
      intro l hl
      have : l = [] := List.eq_nil_of_length_eq_zero (by omega)
      subst this
      simp [chunksRec_nil]
    | succ L ih =>
      intro l hl
      rcases eq_or_ne l [] with rfl | h
      · simp [chunksRec_nil]
      · rw [chunksRec_ne_nil n l h]
        simp only [List.flatten_cons]
        have hrecl : (l.drop (n + 1)).length ≤ L := by
          have hp : 0 < l.length := List.length_pos.mpr h
          simp only [List.length_drop]
          omega
        rw [ih (l.drop (n + 1)) hrecl, List.take_append_drop]
  exact H l.length l le_rfl

theorem chunksRec_length (n : Nat) (l : List Nat) :
    (chunksRec n l).length = (l.length + n) / (n + 1) := by
  have H : ∀ L, ∀ l : List Nat, l.length ≤ L →
      (chunksRec n l).length = (l.length + n) / (n + 1) := by
    intro L
    induction L with
    | zero =>
      intro l hl
      have : l = [] := List.eq_nil_of_length_eq_zero (by omega)
      subst this
      simp [chunksRec_nil, Nat.div_eq_of_lt (Nat.lt_succ_self n)]
    | succ L ih =>
      intro l hl
      rcases eq_or_ne l [] with rfl | h
      · simp [chunksRec_nil, Nat.div_eq_of_lt (Nat.lt_succ_self n)]
      · rw [chunksRec_ne_nil n l h]
        have hp : 0 < l.length := List.length_pos.mpr h
        have hrecl : (l.drop (n + 1)).length ≤ L := by
          simp only [List.length_drop]
          omega
        rw [List.length_cons, ih (l.drop (n + 1)) hrecl]
        simp only [List.length_drop]
        rcases le_or_lt (n + 1) l.length with hge | hlt
        · have h1 : l.length - (n + 1) + n + (n + 1) = l.length + n := by omega
          rw [← h1, Nat.add_div_right _ (Nat.succ_pos n)]
        · have h1 : l.length - (n + 1) = 0 := by omega
          rw [h1]
          have h2 : (0 + n) / (n + 1) = 0 := Nat.div_eq_of_lt (by omega)
          have h3 : (l.length + n) / (n + 1) = 1 :=
            Nat.div_eq_of_lt_le (by omega) (by omega)
          rw [h2, h3]
  exact H l.length l le_rfl

theorem chunksRec_dropLast_length (n : Nat) (l : List Nat) :
    ∀ c ∈ (chunksRec n l).dropLast, c.length = n + 1 := by
  have H : ∀ L, ∀ l : List Nat, l.length ≤ L →
      ∀ c ∈ (chunksRec n l).dropLast, c.length = n + 1 := by
    intro L
    induction L with
    | zero =>
      intro l hl
      have : l = [] := List.eq_nil_of_length_eq_zero (by omega)
      subst this
      simp [chunksRec_nil]
    | succ L ih =>
      intro l hl
      rcases eq_or_ne l [] with rfl | h
      · simp [chunksRec_nil]
      · rw [chunksRec_ne_nil n l h]
        have hp : 0 < l.length := List.length_pos.mpr h
        rcases eq_or_ne (l.drop (n + 1)) [] with hnil | hne
        · rw [hnil, chunksRec_nil]
          simp
        · have hcons : chunksRec n (l.drop (n + 1)) ≠ [] := by
            rw [ne_eq, chunksRec_eq_nil_iff]
            exact hne
          intro c hc
          rw [List.dropLast_cons_of_ne_nil hcons] at hc
          rcases List.mem_cons.mp hc with hc | hc
          · subst hc
            have hlen : n + 1 ≤ l.length := by
              by_contra hcon
              exact hne (List.drop_eq_nil_of_le (by omega))
            simp only [List.length_take]
            omega
          · have hrecl : (l.drop (n + 1)).length ≤ L := by
              simp only [List.length_drop]
              omega
            exact ih (l.drop (n + 1)) hrecl c hc
  exact H l.length l le_rfl

theorem chunksRec_getLast_length (n : Nat) (l : List Nat) (h : l ≠ []) :
    ((chunksRec n l).getLastD []).length =
      if l.length % (n + 1) = 0 then n + 1 else l.length % (n + 1) := by
  have H : ∀ L, ∀ l : List Nat, l.length ≤ L → l ≠ [] →
      ((chunksRec n l).getLastD []).length =
        if l.length % (n + 1) = 0 then n + 1 else l.length % (n + 1) := by
    intro L
    induction L with
    | zero =>
      intro l hl hne
      have : l = [] := List.eq_nil_of_length_eq_zero (by omega)
      exact absurd this hne
    | succ L ih =>
      intro l hl hne
      rw [chunksRec_ne_nil n l hne]
      have hp : 0 < l.length := List.length_pos.mpr hne
      rcases eq_or_ne (l.drop (n + 1)) [] with hnil | hdne
      · rw [hnil, chunksRec_nil]
        have hlen : l.length ≤ n + 1 := by
          by_contra hcon
          have : l.drop (n + 1) ≠ [] := by
            simp only [ne_eq, List.drop_eq_nil_iff]
            omega
          exact this hnil
        simp only [List.getLastD_cons, List.getLastD_nil, List.length_take]
        rcases Nat.eq_or_lt_of_le hlen with heq | hlt
        · rw [heq]
          simp [Nat.mod_self]
        · have hmod : l.length % (n + 1) = l.length := Nat.mod_eq_of_lt hlt
          rw [hmod, if_neg (by omega)]
          omega
      · have hcons : chunksRec n (l.drop (n + 1)) ≠ [] := by
          rw [ne_eq, chunksRec_eq_nil_iff]
          exact hdne
        have hgt : n + 1 < l.length := by
          by_contra hcon
          exact hdne (List.drop_eq_nil_of_le (by omega))
        have hrecl : (l.drop (n + 1)).length ≤ L := by
          simp only [List.length_drop]
          omega
        have hrec := ih (l.drop (n + 1)) hrecl hdne
        have hD : (List.take (n + 1) l :: chunksRec n (l.drop (n + 1))).getLastD [] =
            (chunksRec n (l.drop (n + 1))).getLastD [] := by
          cases hcase : chunksRec n (l.drop (n + 1)) with
          | nil => exact absurd hcase hcons
          | cons x xs => simp [List.getLastD_cons]
        rw [hD, hrec]
        simp only [List.length_drop]
        have hmod : l.length % (n + 1) = (l.length - (n + 1)) % (n + 1) := by
          have h1 : l.length = (l.length - (n + 1)) + (n + 1) := by omega
          conv_lhs => rw [h1]
          rw [Nat.add_mod_right]
        rw [hmod]
  exact H l.length l le_rfl h

/-- C1: for every byte payload of length `L` and chunk size `N > 0`,
`_chunk_bytes` yields exactly `⌈L/N⌉` chunks, each of length `N` except the
last, which has `L % N` bytes (or `N` when `L % N = 0`); the chunks
concatenate back to the payload in order, and the empty payload yields zero
chunks. -/
theorem chunk_bytes_exact (N : Nat) (hN : 0 < N) (payload : List Nat) :
    (chunkBytes N payload).length = (payload.length + N - 1) / N ∧
    (chunkBytes N payload).flatten = payload ∧
    (∀ c ∈ (chunkBytes N payload).dropLast, c.length = N) ∧
    (payload ≠ [] →
      ((chunkBytes N payload).getLastD []).length =
        if payload.length % N = 0 then N else payload.length % N) ∧
    chunkBytes N ([] : List Nat) = [] := by
  obtain ⟨n, rfl⟩ : ∃ n, N = n + 1 := ⟨N - 1, by omega⟩
  rw [chunkBytes_eq_chunksRec]
  refine ⟨?_, chunksRec_flatten n payload, chunksRec_dropLast_length n payload,
    chunksRec_getLast_length n payload, by simp [chunkBytes]⟩
  rw [chunksRec_length]
  have h1 : payload.length + (n + 1) - 1 = payload.length + n := by omega
  rw [h1]

/-- Concrete instantiation of `chunk_bytes_exact` at chunk size 3 and a
7-byte payload. -/
theorem chunk_bytes_exact_witness :
    (0 : Nat) < 3 ∧
    ((chunkBytes 3 [0, 1, 2, 3, 4, 5, 6]).length = (7 + 3 - 1) / 3 ∧
      (chunkBytes 3 [0, 1, 2, 3, 4, 5, 6]).flatten = [0, 1, 2, 3, 4, 5, 6] ∧
      (∀ c ∈ (chunkBytes 3 [0, 1, 2, 3, 4, 5, 6]).dropLast, c.length = 3) ∧
      (([0, 1, 2, 3, 4, 5, 6] : List Nat) ≠ [] →
        ((chunkBytes 3 [0, 1, 2, 3, 4, 5, 6]).getLastD []).length =
          if ([0, 1, 2, 3, 4, 5, 6] : List Nat).length % 3 = 0 then 3
          else ([0, 1, 2, 3, 4, 5, 6] : List Nat).length % 3) ∧
      chunkBytes 3 ([] : List Nat) = []) :=
  ⟨by decide, chunk_bytes_exact 3 (by decide) [0, 1, 2, 3, 4, 5, 6]⟩

/-- JSON values as decoded by Python's `json.loads`: null, booleans, numbers
(represented exactly as rationals), strings, arrays and objects
(ordered key-value records). -/
inductive PyJson where
  | null : PyJson
  | bool (b : Bool) : PyJson
  | num (q : Rat) : PyJson
  | str (s : String) : PyJson
  | arr (items : List PyJson) : PyJson
  | obj (entries : List (String × PyJson)) : PyJson

/-- An inbound Live API server message, exposing optional audio `data`
and optional `text` (either may be absent or empty). -/
structure LiveServerMessage where
  data : Option (List Nat)
  text : Option String

/-- The Python exceptions raised by the embedded code. -/
inductive PyError where
  | runtimeError (msg : String) : PyError
  | attributeError : PyError

/-- Python `"".join` on a list of string fragments. -/
def joinStrings : List String → String
  | [] => ""
  | s :: rest => s ++ joinStrings rest

/-- Python `str.strip()` (restricted to ASCII whitespace): drop whitespace
characters from both ends of the string. -/
def pyStrip (s : String) : String :=
  ⟨((s.data.dropWhile Char.isWhitespace).reverse.dropWhile Char.isWhitespace).reverse⟩

/-- Model of `GeminiLiveAudioClient._collect_audio`: appends `message.data` whenever it
is truthy (present and non-empty), then joins the chunks. -/
def collectAudio (messages : List LiveServerMessage) : List Nat :=
  (messages.filterMap (fun m =>
    match m.data with
    | some d => if d = [] then none else some d
    | none => none)).flatten

/-- Model of `GeminiLiveAudioClient._collect_text`: concatenates every truthy
`message.text` fragment in arrival order, strips the combined result, and
raises when the stripped result is empty. -/
def collectText (messages : List LiveServerMessage) : Except PyError String :=
  let combined := pyStrip (joinStrings (messages.filterMap (fun m =>
    match m.text with
    | some t => if t = "" then none else some t
    | none => none)))
  if combined = "" then
    Except.error (PyError.runtimeError "Live API did not return textual feedback.")
  else
    Except.ok combined

/-- Model of `GeminiLiveAudioClient._parse_analysis_json`, with the external
`json.loads` passed in explicitly (`none` models a `JSONDecodeError`). -/
def parseAnalysisJson (loads : String → Option PyJson) (rawText : String) :
    List (String × PyJson) :=
  match loads rawText with
  | some (PyJson.obj entries) => entries
  | _ =>
    [("accuracy", PyJson.num 0),
     ("is_correct", PyJson.bool false),
     ("feedback",
       PyJson.str (if rawText = "" then "Unable to analyze pronunciation." else rawText)),
     ("problematic_words", PyJson.arr []),
     ("suggestions", PyJson.arr []),
     ("transcription", PyJson.str "")]

/-- Result of `GeminiLiveAudioClient.synthesize_phrase_audio` as a function of
the inbound message sequence of its session: collect the audio, raise when
nothing was received. -/
def synthesizePhraseAudio (inbound : List LiveServerMessage) :
    Except PyError (List Nat) :=
  let audio := collectAudio inbound
  if audio = [] then
    Except.error (PyError.runtimeError "Live API returned no audio for phrase synthesis.")
  else
    Except.ok audio

/-- Result of `GeminiLiveAudioClient.analyze_pronunciation` as a function of
the inbound message sequence of its session: collect the text (raising when
empty), then parse it with the fallback policy. -/
def analyzePronunciation (loads : String → Option PyJson)
    (inbound : List LiveServerMessage) :
    Except PyError (List (String × PyJson)) :=
  match collectText inbound with
  | Except.error e => Except.error e
  | Except.ok t => Except.ok (parseAnalysisJson loads t)

/-- Spec-side audio aggregation: the plain concatenation of the audio data
of the audio-bearing messages, in arrival order. -/
def specAudioConcat (messages : List LiveServerMessage) : List Nat :=
  (messages.filterMap (fun m => m.data)).flatten

/-- Spec-side text aggregation: the concatenation of the text payloads of
all text-bearing messages, stripped at the very end only. -/
def specTextConcat (messages : List LiveServerMessage) : String :=
  pyStrip (joinStrings (messages.filterMap (fun m => m.text)))

theorem collectAudio_eq_spec (messages : List LiveServerMessage) :
    collectAudio messages = specAudioConcat messages := by
  induction messages with
  | nil => rfl
  | cons m ms ih =>
    unfold collectAudio specAudioConcat at *
    cases hd : m.data with
    | none => simp [List.filterMap_cons, hd, ih]
    | some d =>
      rcases eq_or_ne d [] with rfl | hne
      · simp [List.filterMap_cons, hd, ih]
      · simp [List.filterMap_cons, hd, hne, ih]

theorem joinStrings_empty_left (t : String) : "" ++ t = t := by
  exact String.empty_append t

theorem collectText_combined_eq_spec (messages : List LiveServerMessage) :
    joinStrings (messages.filterMap (fun m =>
      match m.text with
      | some t => if t = "" then none else some t
      | none => none)) =
    joinStrings (messages.filterMap (fun m => m.text)) := by
  induction messages with
  | nil => rfl
  | cons m ms ih =>
    cases ht : m.text with
    | none => simp [List.filterMap_cons, ht, ih]
    | some t =>
      rcases eq_or_ne t "" with rfl | hne
      · simp [List.filterMap_cons, ht, ih, joinStrings, String.empty_append]
      · simp [List.filterMap_cons, ht, hne, ih, joinStrings]

theorem collectText_eq_spec (messages : List LiveServerMessage) :
    collectText messages =
      if specTextConcat messages = "" then
        Except.error (PyError.runtimeError "Live API did not return textual feedback.")
      else
        Except.ok (specTextConcat messages) := by
  unfold collectText specTextConcat
  rw [collectText_combined_eq_spec]

/-- C2: the feedback parser returns a decoded JSON record unchanged, and on
any other decode outcome (failure, or a non-record value) returns the fixed
default record, with the raw text as `feedback` when non-empty and the canned
string when empty; it is a total function (never raises). -/
theorem parse_analysis_json_policy (loads : String → Option PyJson) (s : String) :
    (∀ entries, loads s = some (PyJson.obj entries) →
      parseAnalysisJson loads s = entries) ∧
    ((∀ entries, loads s ≠ some (PyJson.obj entries)) →
      parseAnalysisJson loads s =
        [("accuracy", PyJson.num 0),
         ("is_correct", PyJson.bool false),
         ("feedback",
           PyJson.str (if s = "" then "Unable to analyze pronunciation." else s)),
         ("problematic_words", PyJson.arr []),
         ("suggestions", PyJson.arr []),
         ("transcription", PyJson.str "")]) := by
  constructor
  · intro entries h
    unfold parseAnalysisJson
    rw [h]
  · intro h
    unfold parseAnalysisJson
    cases hl : loads s with
    | none => rfl
    | some v =>
      cases v with
      | null => rfl
      | bool b => rfl
      | num q => rfl
      | str t => rfl
      | arr items => rfl
      | obj entries => exact absurd hl (h entries)

/-- Concrete instantiation of `parse_analysis_json_policy`: a decoder that
yields a record passes it through; a failing decode of a non-empty string
yields the default record carrying that string. -/
theorem parse_analysis_json_policy_witness :
    parseAnalysisJson (fun _ => some (PyJson.obj [("accuracy", PyJson.num 1)])) "x" =
      [("accuracy", PyJson.num 1)] ∧
    parseAnalysisJson (fun _ => none) "oops" =
      [("accuracy", PyJson.num 0),
       ("is_correct", PyJson.bool false),
       ("feedback", PyJson.str (if "oops" = "" then "Unable to analyze pronunciation." else "oops")),
       ("problematic_words", PyJson.arr []),
       ("suggestions", PyJson.arr []),
       ("transcription", PyJson.str "")] :=
  ⟨(parse_analysis_json_policy (fun _ => some (PyJson.obj [("accuracy", PyJson.num 1)])) "x").1
      [("accuracy", PyJson.num 1)] rfl,
    (parse_analysis_json_policy (fun _ => none) "oops").2 (fun entries h => by cases h)⟩

/-- C3: `synthesize_phrase_audio` returns exactly the concatenation, in
arrival order, of the audio-bearing messages' data, and raises the
empty-result `RuntimeError` exactly when that concatenation is empty. -/
theorem synthesize_phrase_audio_spec (inbound : List LiveServerMessage) :
    (specAudioConcat inbound ≠ [] →
      synthesizePhraseAudio inbound = Except.ok (specAudioConcat inbound)) ∧
    (specAudioConcat inbound = [] →
      synthesizePhraseAudio inbound =
        Except.error (PyError.runtimeError
          "Live API returned no audio for phrase synthesis.")) := by
  unfold synthesizePhraseAudio
  rw [collectAudio_eq_spec]
  constructor
  · intro h
    rw [if_neg h]
  · intro h
    rw [if_pos h]

/-- Concrete instantiation of `synthesize_phrase_audio_spec`: a mixed inbound
sequence yields the ordered concatenation of its audio frames, and an empty
sequence yields the empty-result error. -/
theorem synthesize_phrase_audio_spec_witness :
    synthesizePhraseAudio
        [⟨some [1], none⟩, ⟨none, some "note"⟩, ⟨some [2, 3], none⟩] =
      Except.ok [1, 2, 3] ∧
    synthesizePhraseAudio [] =
      Except.error (PyError.runtimeError
        "Live API returned no audio for phrase synthesis.") := by
  constructor
  · have h := (synthesize_phrase_audio_spec
      [⟨some [1], none⟩, ⟨none, some "note"⟩, ⟨some [2, 3], none⟩]).1
    have hne : specAudioConcat
        [⟨some [1], none⟩, ⟨none, some "note"⟩, ⟨some [2, 3], none⟩] ≠ [] := by
      simp [specAudioConcat]
    have hval : specAudioConcat
        [⟨some [1], none⟩, ⟨none, some "note"⟩, ⟨some [2, 3], none⟩] = [1, 2, 3] := by
      simp [specAudioConcat]
    rw [h hne, hval]
  · exact (synthesize_phrase_audio_spec []).2 rfl

/-- C4: `analyze_pronunciation` raises the empty-result `RuntimeError` exactly
when the stripped concatenation of the inbound text fragments is empty; when
it is non-empty the call succeeds for every decoder outcome (malformed text is
handled by the parser fallback, not raised). -/
theorem analyze_pronunciation_empty_error (loads : String → Option PyJson)
    (inbound : List LiveServerMessage) :
    (analyzePronunciation loads inbound =
        Except.error (PyError.runtimeError "Live API did not return textual feedback.") ↔
      specTextConcat inbound = "") ∧
    (specTextConcat inbound ≠ "" →
      analyzePronunciation loads inbound =
        Except.ok (parseAnalysisJson loads (specTextConcat inbound))) := by
  unfold analyzePronunciation
  rw [collectText_eq_spec]
  rcases eq_or_ne (specTextConcat inbound) "" with h | h
  · rw [if_pos h]
    constructor
    · constructor
      · intro _
        exact h
      · intro _
        rfl
    · intro hc
      exact absurd h hc
  · rw [if_neg h]
    constructor
    · constructor
      · intro hcon
        cases hcon
      · intro hc
        exact absurd hc h
    · intro _
      rfl

/-- Concrete instantiation of `analyze_pronunciation_empty_error`: a
whitespace-only inbound text stream raises, and a non-empty malformed text
succeeds with the fallback record. -/
theorem analyze_pronunciation_empty_error_witness :
    analyzePronunciation (fun _ => none) [⟨none, some "  "⟩] =
      Except.error (PyError.runtimeError "Live API did not return textual feedback.") ∧
    analyzePronunciation (fun _ => none) [⟨none, some "hi"⟩] =
      Except.ok (parseAnalysisJson (fun _ => none) "hi") := by
  constructor
  · exact (analyze_pronunciation_empty_error (fun _ => none) [⟨none, some "  "⟩]).1.mpr
      (by decide)
  · have h := (analyze_pronunciation_empty_error (fun _ => none) [⟨none, some "hi"⟩]).2
      (by decide)
    have hval : specTextConcat [⟨none, some "hi"⟩] = "hi" := by decide
    rw [hval] at h
    exact h

/-- C5: the text reducer concatenates the text payloads of text-bearing
messages in arrival order with no separator, ignoring non-text messages, and
strips whitespace from the final concatenation only; the fragments
`" foo"` and `"bar "` reduce to `"foobar"`. -/
theorem collect_text_concat_strip (messages : List LiveServerMessage) :
    (specTextConcat messages ≠ "" →
      collectText messages = Except.ok (pyStrip (joinStrings
        (messages.filterMap (fun m => m.text))))) ∧
    collectText [⟨none, some " foo"⟩, ⟨none, some "bar "⟩] = Except.ok "foobar" := by
  constructor
  · intro h
    rw [collectText_eq_spec, if_neg h]
    rfl
  · rfl

/-- Concrete instantiation of `collect_text_concat_strip`: interior and
boundary whitespace of the fragments is preserved, only the outer ends are
stripped. -/
theorem collect_text_concat_strip_witness :
    collectText [⟨none, some " a b"⟩, ⟨none, some " c "⟩] = Except.ok "a b c" := by
  have h := (collect_text_concat_strip [⟨none, some " a b"⟩, ⟨none, some " c "⟩]).1
    (by decide)
  rw [h]
  rfl

/-- The six fields of the PronunciationFeedback schema. -/
def requiredFeedbackFields : List String :=
  ["accuracy", "is_correct", "feedback", "problematic_words", "suggestions",
   "transcription"]

/-- A feedback record is fully populated when it carries all six schema
fields. -/
def fullyPopulated (entries : List (String × PyJson)) : Prop :=
  ∀ f ∈ requiredFeedbackFields, f ∈ entries.map Prod.fst

instance (entries : List (String × PyJson)) : Decidable (fullyPopulated entries) := by
  unfold fullyPopulated
  infer_instance

/-- A decoder fragment agreeing with Python's `json.loads` on the single
input used below: the two-character text `\x7b\x7d` (an empty JSON object
literal) decodes to the empty record. -/
def loadsEmptyObj : String → Option PyJson :=
  fun s => if s = "\x7b\x7d" then some (PyJson.obj []) else none

/-- C6 counterexample: when the response text is the empty JSON object
literal, `analyze_pronunciation` returns the decoded record as-is, which
carries none of the six schema fields. -/
theorem analyze_feedback_missing_fields_cex :
    analyzePronunciation loadsEmptyObj [⟨none, some "\x7b\x7d"⟩] = Except.ok [] ∧
    ¬ fullyPopulated [] := by
  constructor
  · rfl
  · decide

/-- C6 amended: every feedback record produced through the parser's fallback
path (the response does not decode to a JSON record) is fully populated with
all six schema fields; when the response does decode to a record, that record
is returned as-is and may lack fields. -/
theorem analyze_feedback_population (loads : String → Option PyJson)
    (inbound : List LiveServerMessage) (t : String)
    (hcollect : collectText inbound = Except.ok t) :
    ((∀ entries, loads t ≠ some (PyJson.obj entries)) →
      analyzePronunciation loads inbound = Except.ok (parseAnalysisJson loads t) ∧
      fullyPopulated (parseAnalysisJson loads t)) ∧
    (∀ entries, loads t = some (PyJson.obj entries) →
      analyzePronunciation loads inbound = Except.ok entries) := by
  have hrun : analyzePronunciation loads inbound =
      Except.ok (parseAnalysisJson loads t) := by
    unfold analyzePronunciation
    rw [hcollect]
  constructor
  · intro h
    refine ⟨hrun, ?_⟩
    rw [(parse_analysis_json_policy loads t).2 h]
    intro f hf
    have hcases : f = "accuracy" ∨ f = "is_correct" ∨ f = "feedback" ∨
        f = "problematic_words" ∨ f = "suggestions" ∨ f = "transcription" := by
      simpa [requiredFeedbackFields] using hf
    rcases hcases with rfl | rfl | rfl | rfl | rfl | rfl <;> simp
  · intro entries h
    rw [hrun, (parse_analysis_json_policy loads t).1 entries h]

/-- Concrete instantiation of `analyze_feedback_population`: with a failing
decoder, the fallback record for the text `hi` carries all six fields. -/
theorem analyze_feedback_population_witness :
    analyzePronunciation (fun _ => none) [⟨none, some "hi"⟩] =
      Except.ok (parseAnalysisJson (fun _ => none) "hi") ∧
    fullyPopulated (parseAnalysisJson (fun _ => none) "hi") :=
  (analyze_feedback_population (fun _ => none) [⟨none, some "hi"⟩] "hi"
      rfl).1 (fun entries h => by cases h)

/-- Observable events on the underlying live stream handle. -/
inductive SessionEvent where
  | streamOpen : SessionEvent
  | sendClientContent : SessionEvent
  | sendRealtimeInput : SessionEvent
  | receiveDrain : SessionEvent
  | streamClose : SessionEvent
deriving DecidableEq

/-- Model of `GeminiLiveAudioClient._connect`: enters the transport's session context
manager (`async with session_cm as session: yield session`), so the stream is
opened before the body runs and closed when the body's scope exits — on a
normal return and equally when the body raises (Python `async with`
semantics).  The body is an event trace paired with its outcome. -/
def connectRun {ε α : Type} (body : List SessionEvent × Except ε α) :
    List SessionEvent × Except ε α :=
  (SessionEvent.streamOpen :: body.1 ++ [SessionEvent.streamClose], body.2)

/-- The body of `synthesize_phrase_audio`'s session scope: one
`send_client_content`, then the audio-collecting receive drain.  `sendOk`
and `recvOk` inject transport faults into the two suspending operations; a
fault aborts the body with the raised error. -/
def synthesizeSessionBody (sendOk recvOk : Bool)
    (inbound : List LiveServerMessage) :
    List SessionEvent × Except PyError (List Nat) :=
  if sendOk = false then
    ([], Except.error (PyError.runtimeError "send_client_content failed"))
  else if recvOk = false then
    ([SessionEvent.sendClientContent],
      Except.error (PyError.runtimeError "receive failed"))
  else
    ([SessionEvent.sendClientContent, SessionEvent.receiveDrain],
      Except.ok (collectAudio inbound))

/-- The body of `analyze_pronunciation`'s session scope: the instruction
turn, the realtime audio chunks with the end-of-stream signal, the
turn-completing send, then the text-collecting receive drain; each suspending
operation carries a fault switch. -/
def analyzeSessionBody (sendOk streamOk endOk recvOk : Bool)
    (chunkSize : Nat) (audioBytes : List Nat)
    (inbound : List LiveServerMessage) :
    List SessionEvent × Except PyError String :=
  if sendOk = false then
    ([], Except.error (PyError.runtimeError "send_client_content failed"))
  else if streamOk = false then
    ([SessionEvent.sendClientContent],
      Except.error (PyError.runtimeError "send_realtime_input failed"))
  else if endOk = false then
    (SessionEvent.sendClientContent ::
        (chunkBytes chunkSize audioBytes).map (fun _ => SessionEvent.sendRealtimeInput) ++
        [SessionEvent.sendRealtimeInput],
      Except.error (PyError.runtimeError "send_client_content failed"))
  else if recvOk = false then
    (SessionEvent.sendClientContent ::
        (chunkBytes chunkSize audioBytes).map (fun _ => SessionEvent.sendRealtimeInput) ++
        [SessionEvent.sendRealtimeInput, SessionEvent.sendClientContent],
      Except.error (PyError.runtimeError "receive failed"))
  else
    (SessionEvent.sendClientContent ::
        (chunkBytes chunkSize audioBytes).map (fun _ => SessionEvent.sendRealtimeInput) ++
        [SessionEvent.sendRealtimeInput, SessionEvent.sendClientContent,
          SessionEvent.receiveDrain],
      collectText inbound)

/-- Model of `conversation_session`: the `_connect` scope around the optional
instruction send and then the caller's own block, whose trace and outcome are
arbitrary. -/
def conversationSessionRun {ε : Type} (instructionsSent : Bool)
    (callerBody : List SessionEvent × Except ε Unit) :
    List SessionEvent × Except ε Unit :=
  connectRun
    ((if instructionsSent then [SessionEvent.sendClientContent] else []) ++
        callerBody.1,
      callerBody.2)

theorem count_streamClose_map_const (l : List (List Nat)) :
    (l.map (fun _ => SessionEvent.sendRealtimeInput)).count SessionEvent.streamClose = 0 := by
  rw [List.count_eq_zero]
  intro h
  rcases List.mem_map.mp h with ⟨c, _, hc⟩
  cases hc

/-- C7: on every exit path of a session scope opened by
`conversation_session`, `synthesize_phrase_audio` or `analyze_pronunciation`
— normal completion or a fault raised by any send or receive inside the scope
— the underlying stream close runs exactly once. -/
theorem session_scope_closes_once
    (sendOk recvOk sendOk2 streamOk endOk recvOk2 instructionsSent : Bool)
    (chunkSize : Nat) (audioBytes : List Nat)
    (inbound inbound2 : List LiveServerMessage)
    (callerBody : List SessionEvent × Except PyError Unit)
    (hcaller : SessionEvent.streamClose ∉ callerBody.1) :
    (connectRun (synthesizeSessionBody sendOk recvOk inbound)).1.count
        SessionEvent.streamClose = 1 ∧
    (connectRun (analyzeSessionBody sendOk2 streamOk endOk recvOk2
        chunkSize audioBytes inbound2)).1.count SessionEvent.streamClose = 1 ∧
    (conversationSessionRun instructionsSent callerBody).1.count
        SessionEvent.streamClose = 1 := by
  refine ⟨?_, ?_, ?_⟩
  · unfold connectRun synthesizeSessionBody
    cases sendOk <;> cases recvOk <;> simp
  · unfold connectRun analyzeSessionBody
    have hmap := count_streamClose_map_const (chunkBytes chunkSize audioBytes)
    cases sendOk2 <;> cases streamOk <;> cases endOk <;> cases recvOk2 <;>
      simp [List.count_cons, List.count_append, List.count_replicate, hmap]
  · unfold conversationSessionRun connectRun
    have hz : callerBody.1.count SessionEvent.streamClose = 0 :=
      List.count_eq_zero.mpr hcaller
    cases instructionsSent <;>
      simp [List.count_cons, List.count_append, hz]

/-- Concrete instantiation of `session_scope_closes_once`: a failing send in
the synthesis scope, a failing realtime-audio send in the analysis scope, and
a normally returning caller block all still close the stream exactly once. -/
theorem session_scope_closes_once_witness :
    (connectRun (synthesizeSessionBody false true [])).1.count
        SessionEvent.streamClose = 1 ∧
    (connectRun (analyzeSessionBody true false true true 2 [1, 2, 3] [])).1.count
        SessionEvent.streamClose = 1 ∧
    (conversationSessionRun true
        (([SessionEvent.sendClientContent], Except.ok ()) :
          List SessionEvent × Except PyError Unit)).1.count
        SessionEvent.streamClose = 1 :=
  session_scope_closes_once false true true false true true true 2 [1, 2, 3] [] []
    (([SessionEvent.sendClientContent], Except.ok ()) :
      List SessionEvent × Except PyError Unit) (by decide)

/-- Outcome of the external HTTP POST / status check / body decode performed
by `_call_ollama`: an `httpx.HTTPError` (transport failure or error status),
a `json.JSONDecodeError` (malformed body), or a decoded JSON body. -/
inductive OllamaOutcome where
  | httpError (msg : String) : OllamaOutcome
  | jsonDecodeError (msg : String) : OllamaOutcome
  | ok (body : PyJson) : OllamaOutcome

/-- Python `dict.get(key, default)` lookup (without the default). -/
def pyDictGet (entries : List (String × PyJson)) (key : String) : Option PyJson :=
  List.lookup key entries

/-- Model of `ContentGeneratorAgent._call_ollama`: post the prompt, raise-for-status,
decode the body; wrap `httpx.HTTPError` and `json.JSONDecodeError` into
`RuntimeError` with the causing message; on success return
`result.get("response", "").strip()`.  (`result.get` / `.strip` presuppose an
object body carrying a string field; any other decoded shape raises
`AttributeError`.) -/
def callOllama (outcome : OllamaOutcome) : Except PyError String :=
  match outcome with
  | OllamaOutcome.httpError e =>
      Except.error (PyError.runtimeError ("Failed to call Ollama: " ++ e))
  | OllamaOutcome.jsonDecodeError e =>
      Except.error (PyError.runtimeError ("Invalid JSON response from Ollama: " ++ e))
  | OllamaOutcome.ok body =>
      match body with
      | PyJson.obj entries =>
          match pyDictGet entries "response" with
          | some (PyJson.str s) => Except.ok (pyStrip s)
          | some _ => Except.error PyError.attributeError
          | none => Except.ok (pyStrip "")
      | _ => Except.error PyError.attributeError

/-- C8: every transport failure and every malformed-JSON body of the local
phrase-generation call surfaces as the single error kind `RuntimeError`
wrapping the cause — never swallowed, never retried — and a successful call
returns the body's `response` text with surrounding whitespace stripped. -/
theorem call_ollama_error_policy (outcome : OllamaOutcome) :
    (∀ e, outcome = OllamaOutcome.httpError e →
      callOllama outcome =
        Except.error (PyError.runtimeError ("Failed to call Ollama: " ++ e))) ∧
    (∀ e, outcome = OllamaOutcome.jsonDecodeError e →
      callOllama outcome =
        Except.error (PyError.runtimeError ("Invalid JSON response from Ollama: " ++ e))) ∧
    (∀ entries s, outcome = OllamaOutcome.ok (PyJson.obj entries) →
      pyDictGet entries "response" = some (PyJson.str s) →
      callOllama outcome = Except.ok (pyStrip s)) := by
  refine ⟨?_, ?_, ?_⟩
  · intro e h
    subst h
    rfl
  · intro e h
    subst h
    rfl
  · intro entries s h hget
    subst h
    show (match pyDictGet entries "response" with
      | some (PyJson.str s) => Except.ok (pyStrip s)
      | some _ => Except.error PyError.attributeError
      | none => Except.ok (pyStrip "")) = Except.ok (pyStrip s)
    rw [hget]

/-- Concrete instantiation of `call_ollama_error_policy`: a connection error
and a decode error each become a wrapped `RuntimeError`, and a well-formed
body yields its stripped `response` text. -/
theorem call_ollama_error_policy_witness :
    callOllama (OllamaOutcome.httpError "connection refused") =
      Except.error (PyError.runtimeError ("Failed to call Ollama: " ++ "connection refused")) ∧
    callOllama (OllamaOutcome.jsonDecodeError "line 1") =
      Except.error (PyError.runtimeError ("Invalid JSON response from Ollama: " ++ "line 1")) ∧
    callOllama (OllamaOutcome.ok (PyJson.obj [("response", PyJson.str " hola ")])) =
      Except.ok (pyStrip " hola ") :=
  ⟨(call_ollama_error_policy (OllamaOutcome.httpError "connection refused")).1
      "connection refused" rfl,
    (call_ollama_error_policy (OllamaOutcome.jsonDecodeError "line 1")).2.1
      "line 1" rfl,
    (call_ollama_error_policy
        (OllamaOutcome.ok (PyJson.obj [("response", PyJson.str " hola ")]))).2.2
      [("response", PyJson.str " hola ")] " hola " rfl rfl⟩

/-- A unit sent on the realtime-audio channel: a chunked audio blob or the
explicit end-of-stream signal. -/
inductive RealtimeSend where
  | audioBlob (data : List Nat) (mimeType : String) : RealtimeSend
  | audioStreamEnd : RealtimeSend
deriving DecidableEq

/-- Model of `LiveConversationSession.stream_audio`: send every chunk of the payload
as a blob, then the end-of-stream signal when `end_stream` is set. -/
def streamAudio (chunkSize : Nat) (audioBytes : List Nat) (mimeType : String)
    (endStream : Bool) : List RealtimeSend :=
  ((chunkBytes chunkSize audioBytes).map (fun c => RealtimeSend.audioBlob c mimeType)) ++
    (if endStream then [RealtimeSend.audioStreamEnd] else [])

/-- Model of `GeminiLiveAudioClient._stream_audio_chunks`: send every chunk with the
default MIME type, then always the end-of-stream signal. -/
def streamAudioChunks (chunkSize : Nat) (audioBytes : List Nat) : List RealtimeSend :=
  ((chunkBytes chunkSize audioBytes).map
      (fun c => RealtimeSend.audioBlob c DEFAULT_AUDIO_MIME)) ++
    [RealtimeSend.audioStreamEnd]

theorem count_streamEnd_blobs (l : List (List Nat)) (mt : String) :
    (l.map (fun c => RealtimeSend.audioBlob c mt)).count RealtimeSend.audioStreamEnd = 0 := by
  rw [List.count_eq_zero]
  intro h
  rcases List.mem_map.mp h with ⟨c, _, hc⟩
  cases hc

/-- C9: on a zero-length payload, `stream_audio` with `end_stream` set and
`_stream_audio_chunks` send no audio blob but still send the end-of-stream
signal; for every payload the end-of-stream signal is sent exactly once. -/
theorem stream_audio_end_signal (chunkSize : Nat) (mimeType : String)
    (payload : List Nat) :
    streamAudio chunkSize [] mimeType true = [RealtimeSend.audioStreamEnd] ∧
    streamAudioChunks chunkSize [] = [RealtimeSend.audioStreamEnd] ∧
    (streamAudio chunkSize payload mimeType true).count RealtimeSend.audioStreamEnd = 1 ∧
    (streamAudioChunks chunkSize payload).count RealtimeSend.audioStreamEnd = 1 := by
  refine ⟨?_, ?_, ?_, ?_⟩
  · simp [streamAudio, chunkBytes]
  · simp [streamAudioChunks, chunkBytes]
  · unfold streamAudio
    rw [List.count_append, count_streamEnd_blobs]
    simp
  · unfold streamAudioChunks
    rw [List.count_append, count_streamEnd_blobs]
    simp

end LiveAudio

namespace Agents

/-- The `language_map` literal of `TutorOrchestratorAgent._get_language_code`. -/
def languageMap : List (String × String) :=
  [("Spanish", "es"), ("French", "fr"), ("German", "de"), ("Italian", "it"),
   ("Portuguese", "pt"), ("English", "en"), ("Chinese", "zh"), ("Japanese", "ja"),
   ("Korean", "ko"), ("Russian", "ru")]

/-- Model of `TutorOrchestratorAgent._get_language_code`:
`language_map.get(language, "en")`. -/
def getLanguageCode (language : String) : String :=
  (languageMap.lookup language).getD "en"

/-- C10: the language-name-to-code mapping is total and never fails: each of
the ten known names maps to its two-letter code, and every other input maps
to `"en"`. -/
theorem get_language_code_total (s : String) :
    getLanguageCode "Spanish" = "es" ∧
    getLanguageCode "French" = "fr" ∧
    getLanguageCode "German" = "de" ∧
    getLanguageCode "Italian" = "it" ∧
    getLanguageCode "Portuguese" = "pt" ∧
    getLanguageCode "English" = "en" ∧
    getLanguageCode "Chinese" = "zh" ∧
    getLanguageCode "Japanese" = "ja" ∧
    getLanguageCode "Korean" = "ko" ∧
    getLanguageCode "Russian" = "ru" ∧
    (s ∉ languageMap.map Prod.fst → getLanguageCode s = "en") := by
  refine ⟨rfl, rfl, rfl, rfl, rfl, rfl, rfl, rfl, rfl, rfl, ?_⟩
  intro h
  simp only [languageMap, List.map_cons, List.map_nil, List.mem_cons,
    List.not_mem_nil, or_false, not_or] at h
  obtain ⟨h1, h2, h3, h4, h5, h6, h7, h8, h9, h10⟩ := h
  unfold getLanguageCode languageMap
  simp [List.lookup, beq_eq_false_iff_ne.mpr h1, beq_eq_false_iff_ne.mpr h2,
    beq_eq_false_iff_ne.mpr h3, beq_eq_false_iff_ne.mpr h4,
    beq_eq_false_iff_ne.mpr h5, beq_eq_false_iff_ne.mpr h6,
    beq_eq_false_iff_ne.mpr h7, beq_eq_false_iff_ne.mpr h8,
    beq_eq_false_iff_ne.mpr h9, beq_eq_false_iff_ne.mpr h10]

/-- Concrete instantiation of `get_language_code_total` at the unknown
language name `Klingon`, which maps to `"en"`. -/
theorem get_language_code_total_witness :
    getLanguageCode "Klingon" = "en" :=
  (get_language_code_total "Klingon").2.2.2.2.2.2.2.2.2.2 (by decide)

end Agents
